import Mathlib

/-!
Shallow embedding of the connect-four engine in src/four.cxx and proofs
about its specification.  The embedding mirrors the C++ source: the grid
is a row-major list of rows of cells (ColorType = Nat, 0 = empty), the
history is a list of (row, col, playerId) triples with int (here Int)
coordinates, and all coordinate arithmetic in the line scanner is done
over Int exactly as the int arithmetic of the source.
-/

/-- EMPTY_COLOR marks an unoccupied cell, as in the source. -/
def EMPTY_COLOR : Nat := 0

/-- line_len is the fixed run length required to win. -/
def line_len : Nat := 4

/-- line_offset backs up the scan start from the last-placed cell. -/
def line_offset : Nat := line_len - 1

/-- line_steps is the scan window width used by is_terminal. -/
def line_steps : Nat := line_len * 2 - 1

/-- GameState mirrors struct GameState of the source: grid, dimensions
and the history of moves. -/
structure GameState where
  grid : List (List Nat)
  grid_width : Nat
  grid_height : Nat
  history : List (Int × Int × Nat)
deriving DecidableEq, Repr

/-- cell reads grid cell (r, c) with Nat coordinates; out-of-range reads
default to the empty marker (they never occur on the verified paths). -/
def cell (s : GameState) (r c : Nat) : Nat :=
  (s.grid.getD r []).getD c EMPTY_COLOR

/-- cellAt reads grid cell (r, c) with Int coordinates, as the scanner
indexes the vectors of the source with int values. -/
def cellAt (s : GameState) (r c : Int) : Nat :=
  cell s r.toNat c.toNat

/-- setCell writes value v into grid cell (r, c). -/
def setCell (g : List (List Nat)) (r c v : Nat) : List (List Nat) :=
  g.set r ((g.getD r []).set c v)

/-- init_state mirrors GameState.init_state: fails when a dimension is
zero, otherwise builds an all-empty grid with empty history. -/
def init_state (width height : Nat) : Option GameState :=
  if width = 0 ∨ height = 0 then
    none
  else
    some ⟨List.replicate height (List.replicate width EMPTY_COLOR),
          width, height, []⟩

/-- check_line_go is the loop body of check_line: reads the current cell,
updates the consecutive-token counter, then advances the cursor and exits
with false once the cursor leaves the grid. -/
def check_line_go (s : GameState) (row_id col_id inc_row inc_col : Int)
    (player_id : Nat) (token_counter : Nat) : Nat → Bool
  | 0 => false
  | steps + 1 =>
    let tc := if cellAt s row_id col_id = player_id then token_counter + 1 else 0
    if tc = line_len then true
    else
      let row2 := row_id + inc_row
      let col2 := col_id + inc_col
      if row2 > (s.grid_height : Int) - 1 ∨ row2 < 0 then false
      else if col2 > (s.grid_width : Int) - 1 ∨ col2 < 0 then false
      else check_line_go s row2 col2 inc_row inc_col player_id tc steps

/-- check_line mirrors the check_line function of the source. -/
def check_line (s : GameState) (start_row_i start_col_i inc_row inc_col : Int)
    (steps : Nat) (player_id : Nat) : Bool :=
  check_line_go s start_row_i start_col_i inc_row inc_col player_id 0 steps

/-- v_start is the scan start computed for the vertical check. -/
def v_start (token_row token_col : Int) : Int × Int :=
  (max (token_row - (line_offset : Int)) 0, token_col)

/-- h_start is the scan start computed for the horizontal check. -/
def h_start (token_row token_col : Int) : Int × Int :=
  (token_row, max (token_col - (line_offset : Int)) 0)

/-- d1_start is the scan start computed for the first diagonal check;
note that row and column are clamped independently. -/
def d1_start (token_row token_col : Int) : Int × Int :=
  (max (token_row - (line_offset : Int)) 0,
   max (token_col - (line_offset : Int)) 0)

/-- d2_start is the scan start computed for the second diagonal check. -/
def d2_start (w : Nat) (token_row token_col : Int) : Int × Int :=
  (max (token_row - (line_offset : Int)) 0,
   min (token_col + (line_offset : Int)) ((w : Int) - 1))

/-- is_terminal mirrors GameState.is_terminal: inspects the last history
entry and runs the four line scans through it. -/
def is_terminal (s : GameState) : Option Nat :=
  match s.history.getLast? with
  | none => none
  | some (token_row, token_col, player_id) =>
    if check_line s (v_start token_row token_col).1 (v_start token_row token_col).2
        1 0 line_steps player_id then some player_id
    else if check_line s (h_start token_row token_col).1 (h_start token_row token_col).2
        0 1 line_steps player_id then some player_id
    else if check_line s (d1_start token_row token_col).1 (d1_start token_row token_col).2
        1 1 line_steps player_id then some player_id
    else if check_line s (d2_start s.grid_width token_row token_col).1
        (d2_start s.grid_width token_row token_col).2
        1 (-1) line_steps player_id then some player_id
    else none

/-- trace_go scans column col from row n - 1 down to row 0 looking for
the first empty cell, mirroring the descending loop of the source. -/
def trace_go (s : GameState) (col : Nat) : Nat → Option Nat
  | 0 => none
  | n + 1 => if cell s n col = EMPTY_COLOR then some n else trace_go s col n

/-- trace_row_coordinate mirrors the trace_row_coordinate function. -/
def trace_row_coordinate (s : GameState) (col_i : Nat) : Option Nat :=
  if s.grid_width ≤ col_i then none
  else trace_go s col_i s.grid_height

/-- make_turn mirrors the make_turn function: validates the column,
finds the landing row, then writes the token and appends to history.
The state component of the result is the post-call state; on error the
pre-call state is returned untouched, as the source returns before any
mutation. -/
def make_turn (s : GameState) (col_i : Nat) (player_id : Nat) :
    Option String × GameState :=
  if s.grid_width ≤ col_i then
    (some "column index is outside of the grid range", s)
  else
    match trace_row_coordinate s col_i with
    | none =>
      (some "token cannot be placed in a given column as it\x27s full or does not exist", s)
    | some row_i =>
      (none,
       ⟨setCell s.grid row_i col_i player_id,
        s.grid_width, s.grid_height,
        s.history ++ [((row_i : Int), (col_i : Int), player_id)]⟩)

/-- playMoves applies a list of (column, playerId) moves in order,
failing if any make_turn call reports an error. -/
def playMoves (s : GameState) : List (Nat × Nat) → Option GameState
  | [] => some s
  | (col, pid) :: rest =>
    match make_turn s col pid with
    | (none, s2) => playMoves s2 rest
    | (some _, _) => none

/-- WF states that the grid lists physically have the declared
dimensions, as the vectors of a C++ GameState always do. -/
def WF (s : GameState) : Prop :=
  s.grid.length = s.grid_height ∧ ∀ row ∈ s.grid, row.length = s.grid_width

instance (s : GameState) : Decidable (WF s) := by
  unfold WF
  infer_instance

/-- inBounds states that an Int coordinate pair indexes inside the
declared grid dimensions, the condition for a grid read to be defined. -/
def inBounds (s : GameState) (r c : Int) : Prop :=
  0 ≤ r ∧ r < (s.grid_height : Int) ∧ 0 ≤ c ∧ c < (s.grid_width : Int)

instance (s : GameState) (r c : Int) : Decidable (inBounds s r c) := by
  unfold inBounds
  infer_instance

/-- check_lineA_go instruments check_line_go: a grid read at an
out-of-range coordinate (undefined behaviour of the vector indexing in
the source) yields none, and otherwise the scan proceeds exactly as
check_line_go does. -/
def check_lineA_go (s : GameState) (row_id col_id inc_row inc_col : Int)
    (player_id : Nat) (token_counter : Nat) : Nat → Option Bool
  | 0 => some false
  | steps + 1 =>
    if inBounds s row_id col_id then
      let tc := if cellAt s row_id col_id = player_id then token_counter + 1 else 0
      if tc = line_len then some true
      else
        let row2 := row_id + inc_row
        let col2 := col_id + inc_col
        if row2 > (s.grid_height : Int) - 1 ∨ row2 < 0 then some false
        else if col2 > (s.grid_width : Int) - 1 ∨ col2 < 0 then some false
        else check_lineA_go s row2 col2 inc_row inc_col player_id tc steps
    else none

/-- check_lineA is check_line with instrumented grid reads. -/
def check_lineA (s : GameState) (start_row_i start_col_i inc_row inc_col : Int)
    (steps : Nat) (player_id : Nat) : Option Bool :=
  check_lineA_go s start_row_i start_col_i inc_row inc_col player_id 0 steps

/-- is_terminalA instruments is_terminal in the same way: it returns
none exactly when some scan performed an out-of-range grid read. -/
def is_terminalA (s : GameState) : Option (Option Nat) :=
  match s.history.getLast? with
  | none => some none
  | some (token_row, token_col, player_id) =>
    match check_lineA s (v_start token_row token_col).1 (v_start token_row token_col).2
        1 0 line_steps player_id with
    | none => none
    | some true => some (some player_id)
    | some false =>
      match check_lineA s (h_start token_row token_col).1 (h_start token_row token_col).2
          0 1 line_steps player_id with
      | none => none
      | some true => some (some player_id)
      | some false =>
        match check_lineA s (d1_start token_row token_col).1 (d1_start token_row token_col).2
            1 1 line_steps player_id with
        | none => none
        | some true => some (some player_id)
        | some false =>
          match check_lineA s (d2_start s.grid_width token_row token_col).1
              (d2_start s.grid_width token_row token_col).2
              1 (-1) line_steps player_id with
          | none => none
          | some true => some (some player_id)
          | some false => some none

/-- countZeros counts the empty cells of one row. -/
def countZeros : List Nat → Nat
  | [] => 0
  | x :: t => (if x = EMPTY_COLOR then 1 else 0) + countZeros t

/-- emptyCount counts the empty cells of the whole grid. -/
def emptyCount (s : GameState) : Nat :=
  (s.grid.map countZeros).sum

/-- Reachable describes the states produced by init_state followed by
any sequence of make_turn calls whose playerId is a real player (not the
empty marker), the discipline the driver of the source follows. -/
inductive Reachable : GameState → Prop where
  | init : ∀ w h s, init_state w h = some s → Reachable s
  | step : ∀ s col pid, pid ≠ EMPTY_COLOR → Reachable s →
      Reachable (make_turn s col pid).2

/-- play_col_zero iterates make_turn n times on one column with the
empty marker as the player id. -/
def play_col_zero (s : GameState) (col : Nat) : Nat → GameState
  | 0 => s
  | n + 1 => (make_turn (play_col_zero s col n) col EMPTY_COLOR).2

/-- g10 is the 10 by 10 initial state used by the concrete scenarios. -/
def g10 : GameState :=
  ⟨List.replicate 10 (List.replicate 10 EMPTY_COLOR), 10, 10, []⟩

/-- g23 is a small 2 by 3 initial state used by the witnesses. -/
def g23 : GameState :=
  ⟨List.replicate 3 (List.replicate 2 EMPTY_COLOR), 2, 3, []⟩

/-- g11 is the 1 by 1 initial state of the C8 counterexample. -/
def g11 : GameState :=
  ⟨[[EMPTY_COLOR]], 1, 1, []⟩

/-- oneTok is a 1 by 1 state holding one placed token, used as a
concrete in-bounds state by the witnesses. -/
def oneTok : GameState :=
  ⟨[[1]], 1, 1, [((0 : Int), (0 : Int), 1)]⟩

/-- c1_moves drives the game into a state where the last token, played
by player 1 at cell (3, 0), completes the diagonal
(3, 0), (4, 1), (5, 2), (6, 3); player 2 tokens only provide gravity
support underneath. -/
def c1_moves : List (Nat × Nat) :=
  [(0, 2), (0, 2), (0, 2), (0, 2), (0, 2), (0, 2),
   (1, 2), (1, 2), (1, 2), (1, 2), (1, 2), (1, 1),
   (2, 2), (2, 2), (2, 2), (2, 2), (2, 1),
   (3, 2), (3, 2), (3, 2), (3, 1),
   (0, 1)]

/-! Helper lemmas about getD and set on lists. -/

lemma getD_set_self {α : Type} (a d : α) :
    ∀ (l : List α) (i : Nat), i < l.length → (l.set i a).getD i d = a := by
  intro l
  induction l with
  | nil => intro i h; simp at h
  | cons x t ih =>
    intro i h
    cases i with
    | zero => rfl
    | succ n => simpa [List.getD_cons_succ] using ih n (by simpa using h)

lemma getD_set_ne {α : Type} (a d : α) :
    ∀ (l : List α) (i j : Nat), i ≠ j → (l.set i a).getD j d = l.getD j d := by
  intro l
  induction l with
  | nil => intro i j _; simp [List.set]
  | cons x t ih =>
    intro i j hij
    cases i with
    | zero =>
      cases j with
      | zero => exact absurd rfl hij
      | succ m => simp [List.getD_cons_succ]
    | succ n =>
      cases j with
      | zero => simp [List.getD_cons_zero]
      | succ m =>
        simpa [List.getD_cons_succ] using ih n m (by omega)

lemma set_getD_eq {α : Type} (d : α) :
    ∀ (l : List α) (i : Nat), i < l.length → l.set i (l.getD i d) = l := by
  intro l
  induction l with
  | nil => intro i h; simp at h
  | cons x t ih =>
    intro i h
    cases i with
    | zero => rfl
    | succ n =>
      simp only [List.getD_cons_succ, List.set]
      rw [ih n (by simpa using h)]

lemma getD_mem {α : Type} (d : α) :
    ∀ (l : List α) (i : Nat), i < l.length → l.getD i d ∈ l := by
  intro l
  induction l with
  | nil => intro i h; simp at h
  | cons x t ih =>
    intro i h
    cases i with
    | zero => simp [List.getD_cons_zero]
    | succ n =>
      simp only [List.getD_cons_succ]
      exact List.mem_cons_of_mem x (ih n (by simpa using h))

/-- C3: init_state succeeds exactly when both dimensions are positive;
a successful initialization carries height rows of width cells, all
empty, and an empty history; failure produces no state at all. -/
theorem C3_init_state_spec (w h : Nat) :
    ((init_state w h).isSome ↔ 0 < w ∧ 0 < h) ∧
    (∀ s, init_state w h = some s →
      s.grid_width = w ∧ s.grid_height = h ∧ s.grid.length = h ∧
      (∀ row ∈ s.grid, row.length = w ∧ ∀ x ∈ row, x = EMPTY_COLOR) ∧
      s.history = []) := by
  constructor
  · unfold init_state
    split
    · rename_i hzero
      simp only [Option.isSome_none, Bool.false_eq_true, false_iff]
      omega
    · rename_i hzero
      simp only [Option.isSome_some, true_iff]
      omega
  · intro s hs
    unfold init_state at hs
    split at hs
    · exact absurd hs (by simp)
    · rename_i hzero
      have hs2 := Option.some.inj hs
      subst hs2
      refine ⟨rfl, rfl, by simp, ?_, rfl⟩
      intro row hrow
      have hrow2 := List.eq_of_mem_replicate hrow
      subst hrow2
      exact ⟨by simp, fun x hx => List.eq_of_mem_replicate hx⟩

/-- C3 witness at the concrete dimensions 2 and 3. -/
theorem C3_init_state_witness :
    g23.grid.length = 3 ∧ g23.history = [] :=
  ⟨((C3_init_state_spec 2 3).2 g23 rfl).2.2.1,
   ((C3_init_state_spec 2 3).2 g23 rfl).2.2.2.2⟩

/-! Helper lemmas about trace_go and trace_row_coordinate. -/

lemma trace_go_some (s : GameState) (col : Nat) :
    ∀ n r, trace_go s col n = some r →
      r < n ∧ cell s r col = EMPTY_COLOR ∧
      ∀ r2, r < r2 → r2 < n → cell s r2 col ≠ EMPTY_COLOR := by
  intro n
  induction n with
  | zero => intro r h; simp [trace_go] at h
  | succ m ih =>
    intro r h
    unfold trace_go at h
    split at h
    · rename_i hcell
      have hr := Option.some.inj h
      subst hr
      exact ⟨Nat.lt_succ_self m, hcell, fun r2 h1 h2 => absurd h2 (by omega)⟩
    · rename_i hcell
      obtain ⟨h1, h2, h3⟩ := ih r h
      refine ⟨by omega, h2, ?_⟩
      intro r2 hlt hsucc
      rcases Nat.lt_succ_iff_lt_or_eq.mp hsucc with h4 | h4
      · exact h3 r2 hlt h4
      · subst h4; exact hcell

lemma trace_go_none (s : GameState) (col : Nat) :
    ∀ n, trace_go s col n = none ↔ ∀ r, r < n → cell s r col ≠ EMPTY_COLOR := by
  intro n
  induction n with
  | zero => simp [trace_go]
  | succ m ih =>
    unfold trace_go
    split
    · rename_i hcell
      simp only [reduceCtorEq, false_iff]
      intro hall
      exact hall m (Nat.lt_succ_self m) hcell
    · rename_i hcell
      rw [ih]
      constructor
      · intro hall r hr
        rcases Nat.lt_succ_iff_lt_or_eq.mp hr with h4 | h4
        · exact hall r h4
        · subst h4; exact hcell
      · intro hall r hr
        exact hall r (by omega)

/-- C4: make_turn reports the out-of-range message exactly when the
column index lies outside the grid, reports the full-column message
exactly when the column is valid but holds no empty cell, and on either
error returns the state with grid and history untouched. -/
theorem C4_make_turn_errors (s : GameState) (col pid : Nat) :
    ((make_turn s col pid).1 = some "column index is outside of the grid range" ↔
      s.grid_width ≤ col) ∧
    ((make_turn s col pid).1 =
        some "token cannot be placed in a given column as it\x27s full or does not exist" ↔
      col < s.grid_width ∧ ∀ r, r < s.grid_height → cell s r col ≠ EMPTY_COLOR) ∧
    ((make_turn s col pid).1 ≠ none → (make_turn s col pid).2 = s) := by
  unfold make_turn
  split
  · rename_i hcol
    refine ⟨by simpa using hcol, ?_, fun _ => rfl⟩
    simp only [Option.some.injEq]
    constructor
    · intro h
      exact absurd h (by decide)
    · intro h
      omega
  · rename_i hcol
    unfold trace_row_coordinate
    rw [if_neg hcol]
    rcases htr : trace_go s col s.grid_height with _ | r
    · refine ⟨?_, ?_, fun _ => rfl⟩
      · simp only [Option.some.injEq]
        constructor
        · intro h
          exact absurd h.symm (by decide)
        · intro h
          omega
      · simp only [Option.some.injEq, true_iff, iff_true_intro rfl]
        exact ⟨by omega, (trace_go_none s col s.grid_height).mp htr⟩
    · refine ⟨by simp only [reduceCtorEq, false_iff]; omega, ?_, by simp⟩
      simp only [reduceCtorEq, false_iff, not_and, not_forall]
      intro _
      obtain ⟨h1, h2, _⟩ := trace_go_some s col s.grid_height r htr
      exact ⟨r, h1, by simpa using h2⟩

/-- C4 witness at a concrete state and column. -/
theorem C4_make_turn_errors_witness :
    (make_turn g23 5 1).1 = some "column index is outside of the grid range" :=
  ((C4_make_turn_errors g23 5 1).1).mpr (by decide)

lemma trace_some_spec (s : GameState) (col r : Nat)
    (h : trace_row_coordinate s col = some r) :
    col < s.grid_width ∧ r < s.grid_height ∧ cell s r col = EMPTY_COLOR ∧
    ∀ r2, r < r2 → r2 < s.grid_height → cell s r2 col ≠ EMPTY_COLOR := by
  unfold trace_row_coordinate at h
  split at h
  · exact absurd h (by simp)
  · rename_i hcol
    obtain ⟨h1, h2, h3⟩ := trace_go_some s col s.grid_height r h
    exact ⟨by omega, h1, h2, h3⟩

/-- C5: trace_row_coordinate returns exactly the largest row index of an
empty cell in the column (every cell below it occupied), returns nothing
for a valid column exactly when no empty cell exists, and a successful
make_turn lands its token at that row, the lowest empty cell prior to
the call. -/
theorem C5_trace_gravity (s : GameState) (col : Nat) :
    (∀ r, trace_row_coordinate s col = some r →
      col < s.grid_width ∧ r < s.grid_height ∧ cell s r col = EMPTY_COLOR ∧
      ∀ r2, r < r2 → r2 < s.grid_height → cell s r2 col ≠ EMPTY_COLOR) ∧
    (col < s.grid_width →
      (trace_row_coordinate s col = none ↔
        ∀ r, r < s.grid_height → cell s r col ≠ EMPTY_COLOR)) ∧
    (∀ pid, (make_turn s col pid).1 = none →
      ∃ r, trace_row_coordinate s col = some r ∧
        (make_turn s col pid).2.history.getLast? =
          some ((r : Int), (col : Int), pid)) := by
  refine ⟨fun r h => trace_some_spec s col r h, ?_, ?_⟩
  · intro hcol
    unfold trace_row_coordinate
    rw [if_neg (by omega)]
    exact trace_go_none s col s.grid_height
  · intro pid h
    unfold make_turn at h ⊢
    split at h
    · exact absurd h (by simp)
    · rename_i hcol
      rw [if_neg hcol]
      rcases htr : trace_row_coordinate s col with _ | r
      · rw [htr] at h
        exact absurd h (by simp)
      · exact ⟨r, rfl, by simp [List.getLast?_concat]⟩

/-- C5 witness at a concrete state and column. -/
theorem C5_trace_gravity_witness :
    2 < g23.grid_height ∧ cell g23 2 0 = EMPTY_COLOR :=
  ⟨((C5_trace_gravity g23 0).1 2 rfl).2.1, ((C5_trace_gravity g23 0).1 2 rfl).2.2.1⟩

/-- C6: a successful make_turn writes exactly one cell, the landing
cell, leaves every other cell unchanged, appends exactly one entry to
the history, and so grows it by one; a failed call leaves the history
length unchanged. -/
theorem C6_make_turn_frame (s : GameState) (col pid : Nat) (hwf : WF s) :
    ((make_turn s col pid).1 ≠ none →
      (make_turn s col pid).2.history.length = s.history.length) ∧
    ((make_turn s col pid).1 = none →
      ∃ r, trace_row_coordinate s col = some r ∧
        cell (make_turn s col pid).2 r col = pid ∧
        (∀ r2 c2, ¬(r2 = r ∧ c2 = col) →
          cell (make_turn s col pid).2 r2 c2 = cell s r2 c2) ∧
        (make_turn s col pid).2.history =
          s.history ++ [((r : Int), (col : Int), pid)] ∧
        (make_turn s col pid).2.history.length = s.history.length + 1) := by
  unfold make_turn
  split
  · exact ⟨fun _ => rfl, fun h => absurd h (by simp)⟩
  · rename_i hcol
    rcases htr : trace_row_coordinate s col with _ | r
    · exact ⟨fun _ => rfl, fun h => absurd h (by simp)⟩
    · refine ⟨fun h => absurd rfl h, fun _ => ⟨r, rfl, ?_, ?_, rfl, by simp⟩⟩
      · obtain ⟨hrh, _, _⟩ := (trace_some_spec s col r htr).2
        have hrlen : r < s.grid.length := by rw [hwf.1]; exact hrh
        have hrow : (s.grid.getD r []).length = s.grid_width :=
          hwf.2 _ (getD_mem [] s.grid r hrlen)
        show ((setCell s.grid r col pid).getD r []).getD col EMPTY_COLOR = pid
        unfold setCell
        rw [getD_set_self _ [] s.grid r hrlen]
        exact getD_set_self pid EMPTY_COLOR _ col (by
          rw [hrow]; omega)
      · intro r2 c2 hne
        show cell ⟨setCell s.grid r col pid, _, _, _⟩ r2 c2 = cell s r2 c2
        unfold cell setCell
        by_cases hr2 : r2 = r
        · subst hr2
          have hc2 : c2 ≠ col := fun hc => hne ⟨rfl, hc⟩
          obtain ⟨hrh, _, _⟩ := (trace_some_spec s col r2 htr).2
          have hrlen : r2 < s.grid.length := by rw [hwf.1]; exact hrh
          rw [getD_set_self _ [] s.grid r2 hrlen]
          exact getD_set_ne pid EMPTY_COLOR _ col c2 (fun h => hc2 h.symm)
        · rw [getD_set_ne _ [] s.grid r r2 (fun h => hr2 h.symm)]

/-- C6 witness at a concrete state, column and player. -/
theorem C6_make_turn_frame_witness :
    (make_turn g23 0 1).2.history.length = g23.history.length + 1 := by
  obtain ⟨r, _, _, _, _, hlen⟩ := (C6_make_turn_frame g23 0 1 (by decide)).2 rfl
  exact hlen

/-! Helper lemmas relating the instrumented scanner to the plain one. -/

lemma check_lineA_go_eq (s : GameState) (inc_row inc_col : Int) (pid : Nat) :
    ∀ (steps : Nat) (tcount : Nat) (row col : Int), inBounds s row col →
      check_lineA_go s row col inc_row inc_col pid tcount steps =
        some (check_line_go s row col inc_row inc_col pid tcount steps) := by
  intro steps
  induction steps with
  | zero => intro tcount row col _; rfl
  | succ m ih =>
    intro tcount row col hin
    have hin2 := hin
    unfold inBounds at hin2
    unfold check_lineA_go check_line_go
    rw [if_pos hin]
    simp only
    split
    all_goals
      split
      · rfl
      · split
        · rfl
        · split
          · rfl
          · apply ih
            unfold inBounds
            omega

lemma check_lineA_eq (s : GameState) (row col inc_row inc_col : Int)
    (steps : Nat) (pid : Nat) (hin : inBounds s row col) :
    check_lineA s row col inc_row inc_col steps pid =
      some (check_line s row col inc_row inc_col steps pid) :=
  check_lineA_go_eq s inc_row inc_col pid steps 0 row col hin

lemma starts_inBounds (s : GameState) (tr tc : Int)
    (hr : 0 ≤ tr ∧ tr < (s.grid_height : Int))
    (hc : 0 ≤ tc ∧ tc < (s.grid_width : Int)) :
    inBounds s (v_start tr tc).1 (v_start tr tc).2 ∧
    inBounds s (h_start tr tc).1 (h_start tr tc).2 ∧
    inBounds s (d1_start tr tc).1 (d1_start tr tc).2 ∧
    inBounds s (d2_start s.grid_width tr tc).1 (d2_start s.grid_width tr tc).2 := by
  unfold v_start h_start d1_start d2_start inBounds line_offset line_len
  refine ⟨⟨?_, ?_, ?_, ?_⟩, ⟨?_, ?_, ?_, ?_⟩, ⟨?_, ?_, ?_, ?_⟩, ⟨?_, ?_, ?_, ?_⟩⟩ <;>
    simp only [] <;> omega

/-- C7: when the last history entry is in bounds, the instrumented
is_terminal performs no out-of-range grid read: it returns some result,
and that result is exactly the one of the plain model, each scan exiting
with false the moment the cursor leaves the grid. -/
theorem C7_is_terminal_no_oob (s : GameState) (tr tc : Int) (pid : Nat)
    (hlast : s.history.getLast? = some (tr, tc, pid))
    (hr : 0 ≤ tr ∧ tr < (s.grid_height : Int))
    (hc : 0 ≤ tc ∧ tc < (s.grid_width : Int)) :
    is_terminalA s = some (is_terminal s) := by
  obtain ⟨hv, hh, hd1, hd2⟩ := starts_inBounds s tr tc hr hc
  simp only [is_terminalA, is_terminal, hlast]
  rw [check_lineA_eq _ _ _ _ _ _ _ hv, check_lineA_eq _ _ _ _ _ _ _ hh,
      check_lineA_eq _ _ _ _ _ _ _ hd1, check_lineA_eq _ _ _ _ _ _ _ hd2]
  cases check_line s (v_start tr tc).1 (v_start tr tc).2 1 0 line_steps pid <;>
    cases check_line s (h_start tr tc).1 (h_start tr tc).2 0 1 line_steps pid <;>
    cases check_line s (d1_start tr tc).1 (d1_start tr tc).2 1 1 line_steps pid <;>
    cases check_line s (d2_start s.grid_width tr tc).1
      (d2_start s.grid_width tr tc).2 1 (-1) line_steps pid <;>
    rfl

/-- C7 witness at a concrete one-token state. -/
theorem C7_is_terminal_no_oob_witness :
    is_terminalA oneTok = some (is_terminal oneTok) :=
  C7_is_terminal_no_oob oneTok 0 0 1 rfl (by decide) (by decide)

/-- C10: when the last-move coordinates are in bounds, the max and min
clamping of is_terminal puts all four scan starts inside the grid, which
is exactly the precondition of check_line, whose very first read is
performed before any bounds check: on an out-of-bounds start the
instrumented scan reports the undefined read at once. -/
theorem C10_check_line_precondition (s : GameState) (tr tc : Int)
    (hr : 0 ≤ tr ∧ tr < (s.grid_height : Int))
    (hc : 0 ≤ tc ∧ tc < (s.grid_width : Int)) :
    (inBounds s (v_start tr tc).1 (v_start tr tc).2 ∧
     inBounds s (h_start tr tc).1 (h_start tr tc).2 ∧
     inBounds s (d1_start tr tc).1 (d1_start tr tc).2 ∧
     inBounds s (d2_start s.grid_width tr tc).1
       (d2_start s.grid_width tr tc).2) ∧
    (∀ row col inc_row inc_col pid tcount steps, ¬ inBounds s row col →
      check_lineA_go s row col inc_row inc_col pid tcount (steps + 1) = none) := by
  refine ⟨starts_inBounds s tr tc hr hc, ?_⟩
  intro row col inc_row inc_col pid tcount steps hout
  unfold check_lineA_go
  rw [if_neg hout]

/-- C10 witness at a concrete one-token state. -/
theorem C10_check_line_precondition_witness :
    inBounds oneTok (v_start 0 0).1 (v_start 0 0).2 ∧
    check_lineA_go oneTok 5 5 0 0 1 0 1 = none :=
  ⟨(C10_check_line_precondition oneTok 0 0 (by decide) (by decide)).1.1,
   (C10_check_line_precondition oneTok 0 0 (by decide) (by decide)).2
     5 5 0 0 1 0 0 (by decide)⟩

/-- C2: on the 10 by 10 grid, after player 1 lands tokens on columns
0, 1 and 2 of the bottom row, is_terminal returns none; after the fourth
token lands on column 3, is_terminal returns some 1.  The history
components confirm the four tokens occupy row 9, columns 0 to 3. -/
theorem C2_horizontal_win :
    init_state 10 10 = some g10 ∧
    (playMoves g10 [(0, 1), (1, 1), (2, 1)]).map
        (fun s => (is_terminal s, s.history)) =
      some (none,
        [((9 : Int), (0 : Int), 1), ((9 : Int), (1 : Int), 1),
         ((9 : Int), (2 : Int), 1)]) ∧
    (playMoves g10 [(0, 1), (1, 1), (2, 1), (3, 1)]).map
        (fun s => (is_terminal s, s.history)) =
      some (some 1,
        [((9 : Int), (0 : Int), 1), ((9 : Int), (1 : Int), 1),
         ((9 : Int), (2 : Int), 1), ((9 : Int), (3 : Int), 1)]) := by
  refine ⟨rfl, by decide, by decide⟩

/-- C1: the code misses a diagonal win.  The move list c1_moves is a
legal game (all make_turn calls succeed) whose last move, by player 1,
lands at cell (3, 0) and completes the four-in-a-row diagonal
(3, 0), (4, 1), (5, 2), (6, 3) of player 1, yet is_terminal returns
none afterwards: the first diagonal scan clamps row and column
independently, so its start (0, 0) does not lie on the diagonal through
the placed cell. -/
theorem C1_diagonal_win_missed :
    (playMoves g10 c1_moves).map
        (fun s => (s.history.getLast?,
          cell s 3 0, cell s 4 1, cell s 5 2, cell s 6 3, is_terminal s)) =
      some (some ((3 : Int), (0 : Int), 1), 1, 1, 1, 1, none) := by
  rfl

/-- C8 counterexample: on a 1 by 1 grid, make_turn with playerId 0
succeeds without occupying the cell, so from a state satisfying
history.length ≤ grid_width * grid_height a further call breaks the
bound: the claimed invariant is not preserved by arbitrary playerId
arguments. -/
theorem C8_history_bound_cex :
    init_state 1 1 = some g11 ∧
    (make_turn g11 0 0).1 = none ∧
    (make_turn g11 0 0).2.history.length =
      (make_turn g11 0 0).2.grid_width * (make_turn g11 0 0).2.grid_height ∧
    (make_turn (make_turn g11 0 0).2 0 0).1 = none ∧
    (make_turn (make_turn g11 0 0).2 0 0).2.history.length >
      (make_turn (make_turn g11 0 0).2 0 0).2.grid_width *
        (make_turn (make_turn g11 0 0).2 0 0).2.grid_height := by
  refine ⟨rfl, by decide, by decide, by decide, by decide⟩

/-! Helper lemmas for the history-length invariant. -/

lemma countZeros_set (p : Nat) (hp : p ≠ EMPTY_COLOR) :
    ∀ (l : List Nat) (i : Nat), i < l.length →
      l.getD i EMPTY_COLOR = EMPTY_COLOR →
      countZeros (l.set i p) + 1 = countZeros l := by
  intro l
  induction l with
  | nil => intro i h; simp at h
  | cons x t ih =>
    intro i hi hz
    cases i with
    | zero =>
      have hx : x = EMPTY_COLOR := hz
      subst hx
      show countZeros (p :: t) + 1 = countZeros (EMPTY_COLOR :: t)
      unfold countZeros
      rw [if_neg hp, if_pos rfl]
      omega
    | succ n =>
      simp only [List.set, countZeros]
      have := ih n (by simpa using hi) (by simpa [List.getD_cons_succ] using hz)
      omega

lemma map_sum_set (f : List Nat → Nat) :
    ∀ (g : List (List Nat)) (r : Nat) (row2 : List Nat), r < g.length →
      ((g.set r row2).map f).sum + f (g.getD r []) = (g.map f).sum + f row2 := by
  intro g
  induction g with
  | nil => intro r row2 h; simp at h
  | cons x t ih =>
    intro r row2 hr
    cases r with
    | zero =>
      simp only [List.set, List.map, List.sum_cons, List.getD_cons_zero]
      omega
    | succ n =>
      simp only [List.set, List.map, List.sum_cons, List.getD_cons_succ]
      have := ih n row2 (by simpa using hr)
      omega

lemma countZeros_replicate : ∀ w, countZeros (List.replicate w EMPTY_COLOR) = w := by
  intro w
  induction w with
  | zero => rfl
  | succ n ih =>
    rw [List.replicate_succ]
    unfold countZeros
    rw [if_pos rfl, ih]
    omega

lemma sum_replicate_nat : ∀ (n a : Nat), (List.replicate n a).sum = n * a := by
  intro n a
  induction n with
  | zero => simp
  | succ m ih =>
    rw [List.replicate_succ, List.sum_cons, ih]
    ring

lemma make_turn_success_state (s : GameState) (col pid r : Nat)
    (htr : trace_row_coordinate s col = some r) :
    make_turn s col pid =
      (none, ⟨setCell s.grid r col pid, s.grid_width, s.grid_height,
              s.history ++ [((r : Int), (col : Int), pid)]⟩) := by
  have hcol := (trace_some_spec s col r htr).1
  unfold make_turn
  rw [if_neg (by omega), htr]

lemma make_turn_cases (s : GameState) (col pid : Nat) :
    (make_turn s col pid).2 = s ∨
    ∃ r, trace_row_coordinate s col = some r ∧
      make_turn s col pid =
        (none, ⟨setCell s.grid r col pid, s.grid_width, s.grid_height,
                s.history ++ [((r : Int), (col : Int), pid)]⟩) := by
  rcases htr : trace_row_coordinate s col with _ | r
  · unfold make_turn
    split
    · exact Or.inl rfl
    · rw [htr]
      exact Or.inl rfl
  · exact Or.inr ⟨r, rfl, make_turn_success_state s col pid r htr⟩

lemma reachable_inv (s : GameState) (h : Reachable s) :
    WF s ∧ s.history.length + emptyCount s = s.grid_width * s.grid_height := by
  induction h with
  | init w hh s2 hinit =>
    unfold init_state at hinit
    split at hinit
    · exact absurd hinit (by simp)
    · have heq := Option.some.inj hinit
      subst heq
      refine ⟨⟨by simp, ?_⟩, ?_⟩
      · intro row hrow
        rw [List.eq_of_mem_replicate hrow]
        simp
      · show 0 + emptyCount _ = w * hh
        unfold emptyCount
        simp only [List.map_replicate, countZeros_replicate, sum_replicate_nat]
        ring
  | step s2 col pid hpid _ ih =>
    rcases make_turn_cases s2 col pid with heq | ⟨r, htr, heq⟩
    · rw [heq]
      exact ih
    · obtain ⟨hcol, hrh, hcz, _⟩ := trace_some_spec s2 col r htr
      obtain ⟨⟨hlen, hrows⟩, hsum⟩ := ih
      have hrlen : r < s2.grid.length := by omega
      have hrowmem := getD_mem [] s2.grid r hrlen
      have hrowlen : (s2.grid.getD r []).length = s2.grid_width := hrows _ hrowmem
      rw [heq]
      refine ⟨⟨by simpa [setCell] using hlen, ?_⟩, ?_⟩
      · intro row hrow
        rcases List.mem_or_eq_of_mem_set hrow with hmem | hset
        · exact hrows _ hmem
        · rw [hset, List.length_set]
          exact hrowlen
      · have hnew : emptyCount ⟨setCell s2.grid r col pid, s2.grid_width,
            s2.grid_height, s2.history ++ [((r : Int), (col : Int), pid)]⟩ + 1 =
            emptyCount s2 := by
          have hmap := map_sum_set countZeros s2.grid r
            ((s2.grid.getD r []).set col pid) hrlen
          have hcnt := countZeros_set pid hpid (s2.grid.getD r []) col
            (by omega)
            (show (s2.grid.getD r []).getD col EMPTY_COLOR = EMPTY_COLOR from hcz)
          show ((s2.grid.set r ((s2.grid.getD r []).set col pid)).map
              countZeros).sum + 1 = (s2.grid.map countZeros).sum
          omega
        show (s2.history ++ [((r : Int), (col : Int), pid)]).length +
            emptyCount ⟨setCell s2.grid r col pid, s2.grid_width, s2.grid_height,
              s2.history ++ [((r : Int), (col : Int), pid)]⟩ =
            s2.grid_width * s2.grid_height
        rw [List.length_append]
        simp only [List.length_cons, List.length_nil]
        omega

/-- C8 amended: the bound history.length ≤ grid_width * grid_height
holds in every initial state and is preserved by every make_turn call,
successful or failed, whose playerId is not the empty marker 0; with a
playerId of 0 the bound can be broken, see the counterexample. -/
theorem C8_history_bound_reachable (s : GameState) (h : Reachable s) :
    s.history.length ≤ s.grid_width * s.grid_height := by
  have := reachable_inv s h
  omega

/-- C8 witness at the concrete 1 by 1 initial state. -/
theorem C8_history_bound_witness :
    g11.history.length ≤ g11.grid_width * g11.grid_height :=
  C8_history_bound_reachable g11 (Reachable.init 1 1 g11 rfl)

/-! Helper lemmas for make_turn with the empty marker as player id. -/

lemma trace_some_of_nonfull (s : GameState) (col : Nat)
    (hcol : col < s.grid_width)
    (hne : ∃ r, r < s.grid_height ∧ cell s r col = EMPTY_COLOR) :
    ∃ r, trace_row_coordinate s col = some r := by
  unfold trace_row_coordinate
  rw [if_neg (by omega)]
  rcases h : trace_go s col s.grid_height with _ | r
  · obtain ⟨r, hr, hc⟩ := hne
    exact absurd hc ((trace_go_none s col s.grid_height).mp h r hr)
  · exact ⟨r, rfl⟩

lemma make_turn_zero_step (s : GameState) (col : Nat) (hwf : WF s)
    (hcol : col < s.grid_width)
    (hne : ∃ r, r < s.grid_height ∧ cell s r col = EMPTY_COLOR) :
    (make_turn s col EMPTY_COLOR).1 = none ∧
    (make_turn s col EMPTY_COLOR).2.grid = s.grid ∧
    (make_turn s col EMPTY_COLOR).2.grid_width = s.grid_width ∧
    (make_turn s col EMPTY_COLOR).2.grid_height = s.grid_height ∧
    (make_turn s col EMPTY_COLOR).2.history.length = s.history.length + 1 := by
  obtain ⟨r, htr⟩ := trace_some_of_nonfull s col hcol hne
  obtain ⟨_, hrh, hcz, _⟩ := trace_some_spec s col r htr
  rw [make_turn_success_state s col EMPTY_COLOR r htr]
  have hrlen : r < s.grid.length := by
    rw [hwf.1]; exact hrh
  have hrowlen : (s.grid.getD r []).length = s.grid_width :=
    hwf.2 _ (getD_mem [] s.grid r hrlen)
  have hgrid : setCell s.grid r col EMPTY_COLOR = s.grid := by
    unfold setCell
    have hrow : (s.grid.getD r []).set col EMPTY_COLOR = s.grid.getD r [] := by
      have hv : (s.grid.getD r []).getD col EMPTY_COLOR = EMPTY_COLOR := hcz
      calc (s.grid.getD r []).set col EMPTY_COLOR
          = (s.grid.getD r []).set col ((s.grid.getD r []).getD col EMPTY_COLOR) := by
            rw [hv]
        _ = s.grid.getD r [] := set_getD_eq EMPTY_COLOR _ col (by omega)
    rw [hrow]
    exact set_getD_eq [] s.grid r hrlen
  exact ⟨rfl, hgrid, rfl, rfl, by simp⟩

lemma play_col_zero_inv (s : GameState) (col : Nat) (hwf : WF s)
    (hcol : col < s.grid_width)
    (hne : ∃ r, r < s.grid_height ∧ cell s r col = EMPTY_COLOR) :
    ∀ n, (play_col_zero s col n).grid = s.grid ∧
      (play_col_zero s col n).grid_width = s.grid_width ∧
      (play_col_zero s col n).grid_height = s.grid_height ∧
      (play_col_zero s col n).history.length = s.history.length + n := by
  intro n
  induction n with
  | zero => exact ⟨rfl, rfl, rfl, rfl⟩
  | succ m ih =>
    obtain ⟨hg, hw, hh, hl⟩ := ih
    have hwf2 : WF (play_col_zero s col m) := by
      unfold WF
      rw [hg, hw, hh]
      exact hwf
    have hcol2 : col < (play_col_zero s col m).grid_width := by
      rw [hw]; exact hcol
    have hne2 : ∃ r, r < (play_col_zero s col m).grid_height ∧
        cell (play_col_zero s col m) r col = EMPTY_COLOR := by
      rw [hh]
      obtain ⟨r, h1, h2⟩ := hne
      refine ⟨r, h1, ?_⟩
      unfold cell
      rw [hg]
      exact h2
    obtain ⟨_, h2, h3, h4, h5⟩ := make_turn_zero_step _ col hwf2 hcol2 hne2
    refine ⟨?_, ?_, ?_, ?_⟩
    · show (make_turn (play_col_zero s col m) col EMPTY_COLOR).2.grid = s.grid
      rw [h2, hg]
    · show (make_turn (play_col_zero s col m) col EMPTY_COLOR).2.grid_width =
        s.grid_width
      rw [h3, hw]
    · show (make_turn (play_col_zero s col m) col EMPTY_COLOR).2.grid_height =
        s.grid_height
      rw [h4, hh]
    · show (make_turn (play_col_zero s col m) col EMPTY_COLOR).2.history.length =
        s.history.length + (m + 1)
      rw [h5, hl]
      omega

/-- C9: make_turn accepts the empty marker 0 as a player id: on a valid
non-full column it succeeds, writes EMPTY_COLOR so the grid is left
completely unchanged, appends (row, col, 0) to the history, and
therefore the same column keeps accepting moves without bound: n
iterated moves with player id 0 all succeed and grow the history by n,
for every n, in particular beyond grid_height. -/
theorem C9_zero_player (s : GameState) (col : Nat) (hwf : WF s)
    (hcol : col < s.grid_width)
    (hne : ∃ r, r < s.grid_height ∧ cell s r col = EMPTY_COLOR) :
    (make_turn s col EMPTY_COLOR).1 = none ∧
    (make_turn s col EMPTY_COLOR).2.grid = s.grid ∧
    (∃ r, trace_row_coordinate s col = some r ∧ cell s r col = EMPTY_COLOR ∧
      (make_turn s col EMPTY_COLOR).2.history =
        s.history ++ [((r : Int), (col : Int), EMPTY_COLOR)]) ∧
    (∀ n, (make_turn (play_col_zero s col n) col EMPTY_COLOR).1 = none ∧
      (play_col_zero s col n).history.length = s.history.length + n) := by
  obtain ⟨h1, h2, _, _, _⟩ := make_turn_zero_step s col hwf hcol hne
  refine ⟨h1, h2, ?_, ?_⟩
  · obtain ⟨r, htr⟩ := trace_some_of_nonfull s col hcol hne
    refine ⟨r, htr, (trace_some_spec s col r htr).2.2.1, ?_⟩
    rw [make_turn_success_state s col EMPTY_COLOR r htr]
  · intro n
    obtain ⟨hg, hw, hh, hl⟩ := play_col_zero_inv s col hwf hcol hne n
    have hwf2 : WF (play_col_zero s col n) := by
      unfold WF
      rw [hg, hw, hh]
      exact hwf
    have hcol2 : col < (play_col_zero s col n).grid_width := by
      rw [hw]; exact hcol
    have hne2 : ∃ r, r < (play_col_zero s col n).grid_height ∧
        cell (play_col_zero s col n) r col = EMPTY_COLOR := by
      rw [hh]
      obtain ⟨r, hr1, hr2⟩ := hne
      refine ⟨r, hr1, ?_⟩
      unfold cell
      rw [hg]
      exact hr2
    exact ⟨(make_turn_zero_step _ col hwf2 hcol2 hne2).1, hl⟩

/-- C9 witness at a concrete state and column. -/
theorem C9_zero_player_witness :
    (make_turn g23 0 EMPTY_COLOR).1 = none ∧
    (make_turn g23 0 EMPTY_COLOR).2.grid = g23.grid :=
  ⟨(C9_zero_player g23 0 (by decide) (by decide) ⟨2, by decide, by decide⟩).1,
   (C9_zero_player g23 0 (by decide) (by decide) ⟨2, by decide, by decide⟩).2.1⟩
